import Mathlib

/-!
Verification of the parsicomb parser-combinator engine.

The Rust source is embedded shallowly: the cursor enum, the error model,
and each combinator's parse method become Lean definitions that mirror the
source control flow; machine integers (u8, u32, usize) are modelled as Nat
(all arithmetic in the embedded code is bounded, so no wrap-around occurs),
borrowed slices as List, and Result as Except.  Combinator loops
(Many / Some / SeparatedList / TakeUntil) take an explicit fuel argument:
the Rust loops terminate only when the inner parser makes progress, and the
theorems below are stated so that their conclusions are independent of the
fuel whenever the fuel is large enough for the loop to finish.
-/

namespace Parsicomb

/-- Embeds AtomicCursor from src/cursors/atomic.rs: either a valid position
into the source slice or the end-of-file marker.  ByteCursor in
src/cursors/byte.rs is the alias AtomicCursor u8. -/
inductive AtomicCursor (α : Type) : Type where
  | Valid (data : List α) (position : Nat)
  | EndOfFile (data : List α)
deriving Repr, DecidableEq

/-- Embeds CodeLoc from src/error.rs: a source slice plus an absolute index. -/
structure CodeLoc (α : Type) : Type where
  code : List α
  loc : Nat
deriving Repr, DecidableEq

/-- CodeLoc::position. -/
def CodeLoc.position (l : CodeLoc α) : Nat := l.loc

/-- Embeds the leaf error enum ParsicombError from src/error.rs.  The
WrappedError variant is omitted: none of the combinators under
consideration constructs it.  Message strings are carried verbatim where
the source uses a constant; where the source formats values into the
message (is_byte, between_bytes), a simplified interpolation is used, and
no theorem depends on those formatted texts. -/
inductive PError (α : Type) : Type where
  | UnexpectedEndOfFile (loc : CodeLoc α)
  | AlreadyAtEndOfFile (loc : CodeLoc α)
  | CannotReadValueAtEof (loc : CodeLoc α)
  | SyntaxError (message : String) (loc : CodeLoc α)
deriving Repr, DecidableEq

/-- ErrorLeaf::loc for ParsicombError (src/error.rs, impl ErrorLeaf). -/
def PError.loc : PError α → CodeLoc α
  | .UnexpectedEndOfFile l => l
  | .AlreadyAtEndOfFile l => l
  | .CannotReadValueAtEof l => l
  | .SyntaxError _ l => l

/-- AtomicCursor::new: empty slice starts at EndOfFile, otherwise at index 0. -/
def AtomicCursor.new (data : List α) : AtomicCursor α :=
  if data.isEmpty then .EndOfFile data else .Valid data 0

/-- Cursor::value for AtomicCursor.  The Rust reads data[position], which
is total for every cursor satisfying the reachability invariant (proved
below); getD keeps the Lean function total on the invariant-violating
cursors that the Rust can never construct. -/
def AtomicCursor.value [Inhabited α] : AtomicCursor α → Except (PError α) α
  | .Valid data position => .ok (data.getD position default)
  | .EndOfFile data => .error (.CannotReadValueAtEof ⟨data, data.length⟩)

/-- Cursor::next for AtomicCursor: total, clamps at EndOfFile. -/
def AtomicCursor.next : AtomicCursor α → AtomicCursor α
  | .Valid data position =>
      if position + 1 ≥ data.length then .EndOfFile data
      else .Valid data (position + 1)
  | .EndOfFile data => .EndOfFile data

/-- Cursor::try_next for AtomicCursor: errors when the advance would land
at or start from the end. -/
def AtomicCursor.tryNext : AtomicCursor α → Except (PError α) (AtomicCursor α)
  | .Valid data position =>
      match AtomicCursor.next (.Valid data position) with
      | .Valid d p => .ok (.Valid d p)
      | .EndOfFile d => .error (.UnexpectedEndOfFile ⟨d, d.length⟩)
  | .EndOfFile data => .error (.AlreadyAtEndOfFile ⟨data, data.length⟩)

/-- Cursor::position: the absolute index, the slice length at EndOfFile. -/
def AtomicCursor.position : AtomicCursor α → Nat
  | .Valid _ position => position
  | .EndOfFile data => data.length

/-- Cursor::source: the full backing slice. -/
def AtomicCursor.source : AtomicCursor α → List α
  | .Valid data _ => data
  | .EndOfFile data => data

/-- Cursor::inner: the slice and the absolute index. -/
def AtomicCursor.inner : AtomicCursor α → List α × Nat
  | .Valid data position => (data, position)
  | .EndOfFile data => (data, data.length)

/-- True exactly on the EndOfFile variant. -/
def AtomicCursor.isEof : AtomicCursor α → Bool
  | .Valid _ _ => false
  | .EndOfFile _ => true

/-- The error-node tree.  In Rust every combinator's error type implements
the ErrorNode trait and wraps its children as Box dyn ErrorNode; this
inductive is the closure of those implementations: leaf is ParsicombError
(src/error.rs), orBothFailed is OrError::BothFailed (src/or.rs),
andFirstParser / andSecondParser are AndError (src/and.rs), and
filterParserError / filterFailed are FilterError (src/filter.rs). -/
inductive ENode (α : Type) : Type where
  | leaf (e : PError α)
  | orBothFailed (first second : ENode α)
  | andFirstParser (e : ENode α)
  | andSecondParser (e : ENode α)
  | filterParserError (e : ENode α)
  | filterFailed (e : PError α)
deriving Repr, DecidableEq

/-- likely_error: the furthest-error resolution fold.  Each branch mirrors
the corresponding impl ErrorNode: ParsicombError returns itself
(src/error.rs), OrError compares the two resolved leaf positions and keeps
the first on ties (src/or.rs lines 86-99), AndError descends into its one
failing child (src/and.rs lines 88-96), FilterError descends into the
child error or returns its own leaf (src/filter.rs). -/
def ENode.likelyError : ENode α → PError α
  | .leaf e => e
  | .orBothFailed first second =>
      let firstBase := first.likelyError
      let secondBase := second.likelyError
      if firstBase.loc.position ≥ secondBase.loc.position then firstBase
      else secondBase
  | .andFirstParser e => e.likelyError
  | .andSecondParser e => e.likelyError
  | .filterParserError e => e.likelyError
  | .filterFailed e => e

/-- The Parser contract of src/parser.rs, specialised to AtomicCursor:
a cursor goes in, a value plus new cursor or an error-node comes out. -/
def ParserFn (α β : Type) : Type :=
  AtomicCursor α → Except (ENode α) (β × AtomicCursor α)

/-- Or::parse (src/or.rs lines 132-144): try parser1 on the cursor; on
failure try parser2 on the same cursor (cursors are Copy in Rust); if both
fail, wrap both errors. -/
def orP (p1 p2 : ParserFn α β) : ParserFn α β := fun cursor =>
  match p1 cursor with
  | .ok result => .ok result
  | .error firstError =>
      match p2 cursor with
      | .ok result => .ok result
      | .error secondError => .error (.orBothFailed firstError secondError)

/-- And::parse (src/and.rs lines 153-163): run parser1, then parser2 on
the cursor parser1 returned; tag whichever child failed. -/
def andP (p1 : ParserFn α β₁) (p2 : ParserFn α β₂) : ParserFn α (β₁ × β₂) :=
  fun cursor =>
    match p1 cursor with
    | .error e => .error (.andFirstParser e)
    | .ok (result1, cursor1) =>
        match p2 cursor1 with
        | .error e => .error (.andSecondParser e)
        | .ok (result2, cursor2) => .ok ((result1, result2), cursor2)

/-- ByteParser::parse (src/byte.rs lines 22-28), generalised to any
element type exactly as AtomicParser does for AtomicCursor: read the value
at the cursor and advance; the cursor's end-of-file error propagates. -/
def byteP [Inhabited α] : ParserFn α α := fun cursor =>
  match cursor.value with
  | .ok b => .ok (b, cursor.next)
  | .error e => .error (.leaf e)

/-- IsByteParser::parse (src/byte.rs lines 45-67).  The Rust message
formats the bytes in hex with char renderings; the interpolation here is
simplified and no theorem depends on its text. -/
def isByte (expected : Nat) : ParserFn Nat Nat := fun cursor =>
  match cursor.value with
  | .ok b =>
      if b = expected then .ok (b, cursor.next)
      else
        .error (.leaf (.SyntaxError s!"expected byte {expected}, found {b}"
          ⟨cursor.inner.1, cursor.inner.2⟩))
  | .error e => .error (.leaf e)

/-- BetweenBytesParser::parse (src/byte.rs lines 85-107): matches a byte
in the inclusive range, with the same message simplification as isByte. -/
def betweenBytes (start stop : Nat) : ParserFn Nat Nat := fun cursor =>
  match cursor.value with
  | .ok b =>
      if start ≤ b ∧ b ≤ stop then .ok (b, cursor.next)
      else
        .error (.leaf (.SyntaxError
          s!"expected byte in range {start}-{stop}, found {b}"
          ⟨cursor.inner.1, cursor.inner.2⟩))
  | .error e => .error (.leaf e)

/-- digit (src/ascii/number/digit.rs): between_bytes of the ASCII digits. -/
def digitP : ParserFn Nat Nat := betweenBytes 48 57

/-- Not::parse (src/not.rs lines 32-48): negative lookahead.  On the inner
parser's success, fail with a syntax error at the original cursor's inner
position; on its failure, succeed with unit and the original cursor. -/
def notP (p : ParserFn α β) : ParserFn α Unit := fun cursor =>
  match p cursor with
  | .ok _ =>
      .error (.leaf (.SyntaxError "negative lookahead failed: unexpected match"
        ⟨cursor.inner.1, cursor.inner.2⟩))
  | .error _ => .ok ((), cursor)

/-- FilterParser::parse (src/filter.rs lines 54-73): run the inner parser,
then test the predicate; rejection is anchored at the original cursor's
inner position and carries the configured message. -/
def filterP (p : ParserFn α β) (predicate : β → Bool) (errorMessage : String) :
    ParserFn α β := fun cursor =>
  match p cursor with
  | .error e => .error (.filterParserError e)
  | .ok (value, newCursor) =>
      if predicate value then .ok (value, newCursor)
      else
        .error (.filterFailed (.SyntaxError errorMessage
          ⟨cursor.inner.1, cursor.inner.2⟩))

/-- Span from src/position.rs.  The field named end in Rust is a Lean
keyword and is called endPos here. -/
structure Span (α : Type) : Type where
  source : List α
  start : Nat
  endPos : Nat
deriving Repr, DecidableEq

/-- Span::slice: the source sub-slice source[start..end]. -/
def Span.slice (s : Span α) : List α :=
  (s.source.drop s.start).take (s.endPos - s.start)

/-- Position::parse (src/position.rs lines 68-77): record the position and
source before running the inner parser, pair its output with the span up
to the returned cursor's position. -/
def positionP (p : ParserFn α β) : ParserFn α (β × Span α) := fun cursor =>
  let startPos := cursor.position
  let source := cursor.source
  match p cursor with
  | .error e => .error e
  | .ok (output, newCursor) =>
      .ok ((output, ⟨source, startPos, newCursor.position⟩), newCursor)

/-- The elements of the source lying between the positions of two cursors:
what a parser that advanced the first cursor to the second consumed. -/
def segmentBetween (c c₂ : AtomicCursor α) : List α :=
  (c.source.drop c.position).take (c₂.position - c.position)

/-- The loop of Many::parse (src/many.rs lines 28-39): apply the parser
until it fails, collecting outputs; the failing attempt's error is
swallowed and the cursor from just before it is kept.  The fuel bounds the
iteration count; Rust's loop needs no bound because it only terminates
when the parser eventually fails. -/
def manyLoop (p : ParserFn α β) : Nat → AtomicCursor α →
    List β × AtomicCursor α
  | 0, cursor => ([], cursor)
  | fuel + 1, cursor =>
      match p cursor with
      | .ok (value, nextCursor) =>
          let (rest, finalCursor) := manyLoop p fuel nextCursor
          (value :: rest, finalCursor)
      | .error _ => ([], cursor)

/-- Many::parse (src/many.rs lines 22-43): the loop result, always Ok. -/
def manyP (p : ParserFn α β) (fuel : Nat) : ParserFn α (List β) :=
  fun cursor => .ok (manyLoop p fuel cursor)

/-- Some::parse (src/some.rs lines 22-45): the first application must
succeed and its error propagates; then the same collecting loop as Many. -/
def someP (p : ParserFn α β) (fuel : Nat) : ParserFn α (List β) :=
  fun cursor =>
    match p cursor with
    | .error e => .error e
    | .ok (firstValue, cursor1) =>
        let (rest, finalCursor) := manyLoop p fuel cursor1
        (.ok (firstValue :: rest, finalCursor))

/-- The loop of SeparatedList::parse (src/separated_list.rs lines 92-103):
try the separator, stop silently when it fails; after a separator match
the next element is required and its error propagates. -/
def sepListLoop (p : ParserFn α β) (sep : ParserFn α γ) :
    Nat → List β → AtomicCursor α → Except (ENode α) (List β × AtomicCursor α)
  | 0, results, cursor => .ok (results, cursor)
  | fuel + 1, results, cursor =>
      match sep cursor with
      | .error _ => .ok (results, cursor)
      | .ok (_, tempCursor) =>
          match p tempCursor with
          | .error e => .error e
          | .ok (value, nextCursor) =>
              sepListLoop p sep fuel (results ++ [value]) nextCursor

/-- SeparatedList::parse (src/separated_list.rs lines 84-106): the first
element is required (its error returned directly), then the loop. -/
def separatedListP (p : ParserFn α β) (sep : ParserFn α γ) (fuel : Nat) :
    ParserFn α (List β) := fun cursor =>
  match p cursor with
  | .error e => .error e
  | .ok (firstValue, cursor1) => sepListLoop p sep fuel [firstValue] cursor1

/-- The loop of TakeUntilParser::parse (src/take_until.rs lines 28-58):
return successfully on the EndOfFile variant; otherwise run the parser,
stop without consuming when the predicate holds, accumulate and continue
otherwise, and propagate the parser's error. -/
def takeUntilLoop (p : ParserFn α β) (f : β → Bool) :
    Nat → List β → AtomicCursor α → Except (ENode α) (List β × AtomicCursor α)
  | 0, result, currentCursor => .ok (result, currentCursor)
  | fuel + 1, result, currentCursor =>
      match currentCursor with
      | .EndOfFile _ => .ok (result, currentCursor)
      | .Valid data position =>
          match p (.Valid data position) with
          | .ok (item, newCursor) =>
              if f item then .ok (result, .Valid data position)
              else takeUntilLoop p f fuel (result ++ [item]) newCursor
          | .error e => .error e

/-- TakeUntilParser::parse (src/take_until.rs lines 24-59). -/
def takeUntilP (p : ParserFn α β) (f : β → Bool) (fuel : Nat) :
    ParserFn α (List β) := fun cursor => takeUntilLoop p f fuel [] cursor

/-- char::from_u32: Some exactly on Unicode scalar values (not a UTF-16
surrogate and at most U+10FFFF); the char output is modelled as the Nat
scalar value. -/
def charFromU32 (cp : Nat) : Option Nat :=
  if 0xD800 ≤ cp ∧ cp ≤ 0xDFFF then none
  else if cp > 0x10FFFF then none
  else some cp

/-- create_error from src/utf8/char.rs lines 12-21: a syntax error at the
given cursor's inner position. -/
def createError (cursor : AtomicCursor Nat) (message : String) : PError Nat :=
  .SyntaxError message ⟨cursor.inner.1, cursor.inner.2⟩

/-- The tail of CharParser::parse (src/utf8/char.rs lines 125-132):
convert the assembled codepoint, falling back to an error at the original
cursor (unreachable after the range checks, kept for faithfulness; the
Rust message formats the codepoint in). -/
def charFinish (codepoint : Nat) (currentCursor origCursor : AtomicCursor Nat) :
    Except (ENode Nat) (Nat × AtomicCursor Nat) :=
  match charFromU32 codepoint with
  | some ch => .ok (ch, currentCursor)
  | none => .error (.leaf (createError origCursor "invalid Unicode codepoint"))

/-- CharParser::parse (src/utf8/char.rs lines 28-133): decode one UTF-8
character from a byte cursor.  Every branch, check, error message and
error anchor cursor mirrors the source: classification by the lead byte,
incomplete-sequence errors at the cursor where the missing byte was
expected, continuation-byte errors at the cursor after the bytes read so
far, and overlong / surrogate / out-of-range errors at the original
cursor. -/
def charP : ParserFn Nat Nat := fun cursor =>
  match byteP cursor with
  | .error e => .error e
  | .ok (b1, currentCursor) =>
      if b1 < 0x80 then
        .ok (b1, currentCursor)
      else if b1 < 0xC0 then
        .error (.leaf (createError cursor "invalid UTF-8 start byte"))
      else if b1 < 0xE0 then
        match byteP currentCursor with
        | .error _ =>
            .error (.leaf (createError currentCursor "incomplete UTF-8 sequence"))
        | .ok (b2, newCursor) =>
            if ¬(b2 &&& 0xC0 = 0x80) then
              .error (.leaf (createError newCursor "invalid UTF-8 continuation byte"))
            else
              let cp := ((b1 &&& 0x1F) <<< 6) ||| (b2 &&& 0x3F)
              if cp < 0x80 then
                .error (.leaf (createError cursor "overlong UTF-8 encoding"))
              else charFinish cp newCursor cursor
      else if b1 < 0xF0 then
        match byteP currentCursor with
        | .error _ =>
            .error (.leaf (createError currentCursor "incomplete UTF-8 sequence"))
        | .ok (b2, c2) =>
            match byteP c2 with
            | .error _ =>
                .error (.leaf (createError c2 "incomplete UTF-8 sequence"))
            | .ok (b3, c3) =>
                if ¬(b2 &&& 0xC0 = 0x80) ∨ ¬(b3 &&& 0xC0 = 0x80) then
                  .error (.leaf (createError c3 "invalid UTF-8 continuation byte"))
                else
                  let cp := ((b1 &&& 0x0F) <<< 12) ||| ((b2 &&& 0x3F) <<< 6) |||
                    (b3 &&& 0x3F)
                  if cp < 0x800 then
                    .error (.leaf (createError cursor "overlong UTF-8 encoding"))
                  else if 0xD800 ≤ cp ∧ cp ≤ 0xDFFF then
                    .error (.leaf (createError cursor "UTF-16 surrogate in UTF-8"))
                  else charFinish cp c3 cursor
      else if b1 < 0xF8 then
        match byteP currentCursor with
        | .error _ =>
            .error (.leaf (createError currentCursor "incomplete UTF-8 sequence"))
        | .ok (b2, c2) =>
            match byteP c2 with
            | .error _ =>
                .error (.leaf (createError c2 "incomplete UTF-8 sequence"))
            | .ok (b3, c3) =>
                match byteP c3 with
                | .error _ =>
                    .error (.leaf (createError c3 "incomplete UTF-8 sequence"))
                | .ok (b4, c4) =>
                    if ¬(b2 &&& 0xC0 = 0x80) ∨ ¬(b3 &&& 0xC0 = 0x80) ∨
                        ¬(b4 &&& 0xC0 = 0x80) then
                      .error (.leaf (createError c4 "invalid UTF-8 continuation byte"))
                    else
                      let cp := ((b1 &&& 0x07) <<< 18) ||| ((b2 &&& 0x3F) <<< 12) |||
                        ((b3 &&& 0x3F) <<< 6) ||| (b4 &&& 0x3F)
                      if cp < 0x10000 then
                        .error (.leaf (createError cursor "overlong UTF-8 encoding"))
                      else if cp > 0x10FFFF then
                        .error (.leaf (createError cursor "codepoint beyond Unicode range"))
                      else charFinish cp c4 cursor
      else
        .error (.leaf (createError cursor "invalid UTF-8 start byte"))

/-- The cursors reachable through the AtomicCursor lifecycle: created by
new, advanced by next or a successful try_next. -/
inductive Reached : AtomicCursor α → Prop where
  | new (data : List α) : Reached (AtomicCursor.new data)
  | next {c : AtomicCursor α} : Reached c → Reached c.next
  | tryNext {c c₂ : AtomicCursor α} : Reached c → c.tryNext = .ok c₂ → Reached c₂

/-- The execution trace hypothesis of claim C10: from this cursor, the
TakeUntil loop reaches the end of the input, the parser succeeding at
every applied step and the predicate never firing; the index records the
items produced along the way and the slice behind the final
end-of-sequence cursor. -/
inductive RunsToEof (p : ParserFn α β) (f : β → Bool) :
    List β → List α → AtomicCursor α → Prop where
  | eof (data : List α) : RunsToEof p f [] data (.EndOfFile data)
  | step {data : List α} {position : Nat} {v : β} {c₂ : AtomicCursor α}
      {items : List β} {dataEnd : List α} :
      p (.Valid data position) = .ok (v, c₂) → f v = false →
      RunsToEof p f items dataEnd c₂ →
      RunsToEof p f (v :: items) dataEnd (.Valid data position)

/-- The well-formedness invariant of the cursor data model: a valid
cursor's index is strictly inside the source slice. -/
def WFCursor : AtomicCursor α → Prop
  | .Valid data position => position < data.length
  | .EndOfFile _ => True

theorem AtomicCursor.inner_fst (c : AtomicCursor α) : c.inner.1 = c.source := by
  cases c <;> rfl

theorem AtomicCursor.inner_snd (c : AtomicCursor α) : c.inner.2 = c.position := by
  cases c <;> rfl

/-- Claim C1: Or(p1, p2) runs p1 on the input cursor; when p1 succeeds its
result is returned and the outcome does not depend on p2 (p2 is never
run); when p1 fails, p2 is run on the same original cursor, and when both
fail the returned error wraps both child errors. -/
theorem or_backtracking_semantics (p1 p2 : ParserFn α β) (c : AtomicCursor α) :
    (∀ r, p1 c = .ok r → orP p1 p2 c = .ok r) ∧
    (∀ r (p2' : ParserFn α β), p1 c = .ok r → orP p1 p2 c = orP p1 p2' c) ∧
    (∀ e1 r, p1 c = .error e1 → p2 c = .ok r → orP p1 p2 c = .ok r) ∧
    (∀ e1 e2, p1 c = .error e1 → p2 c = .error e2 →
      orP p1 p2 c = .error (.orBothFailed e1 e2)) := by
  refine ⟨?_, ?_, ?_, ?_⟩ <;> intros <;> simp_all [orP]

/-- Witness for C1 on concrete byte parsers: the first alternative wins
when it matches, the second is retried from the same start position, and a
double failure wraps both errors. -/
theorem or_backtracking_semantics_witness :
    orP (isByte 97) (isByte 98) (AtomicCursor.Valid [97, 99] 0) =
      .ok (97, .Valid [97, 99] 1) ∧
    orP (isByte 97) (isByte 98) (AtomicCursor.Valid [98, 99] 0) =
      .ok (98, .Valid [98, 99] 1) ∧
    orP (isByte 97) (isByte 98) (AtomicCursor.Valid [99] 0) =
      .error (.orBothFailed
        (.leaf (.SyntaxError "expected byte 97, found 99" ⟨[99], 0⟩))
        (.leaf (.SyntaxError "expected byte 98, found 99" ⟨[99], 0⟩))) :=
  ⟨(or_backtracking_semantics (isByte 97) (isByte 98)
      (AtomicCursor.Valid [97, 99] 0)).1 _ rfl,
   (or_backtracking_semantics (isByte 97) (isByte 98)
      (AtomicCursor.Valid [98, 99] 0)).2.2.1 _ _ rfl rfl,
   (or_backtracking_semantics (isByte 97) (isByte 98)
      (AtomicCursor.Valid [99] 0)).2.2.2 _ _ rfl rfl⟩

/-- Claim C2: resolving an Or error yields, of the two recursively
resolved child leaves, the one at the larger absolute position, the first
alternative winning exact ties; resolution descends through And nodes to
their single failing child, so this holds at any nesting depth. -/
theorem likely_error_furthest_selection (e1 e2 : ENode α) :
    (e1.likelyError.loc.position ≥ e2.likelyError.loc.position →
      (ENode.orBothFailed e1 e2).likelyError = e1.likelyError) ∧
    (e1.likelyError.loc.position < e2.likelyError.loc.position →
      (ENode.orBothFailed e1 e2).likelyError = e2.likelyError) ∧
    (e1.likelyError.loc.position = e2.likelyError.loc.position →
      (ENode.orBothFailed e1 e2).likelyError = e1.likelyError) ∧
    (ENode.andFirstParser e1).likelyError = e1.likelyError ∧
    (ENode.andSecondParser e1).likelyError = e1.likelyError := by
  refine ⟨fun h => ?_, fun h => ?_, fun h => ?_, rfl, rfl⟩ <;>
    simp [ENode.likelyError] <;> omega

/-- Witness for C2 at three levels of nested Or and And error nodes:
with leaves at absolute positions 2, 5 and 1, resolution returns the
position-5 leaf. -/
theorem likely_error_furthest_selection_witness :
    (ENode.orBothFailed
      (ENode.andSecondParser (.leaf (.SyntaxError "a" ⟨([] : List Nat), 2⟩)))
      (ENode.orBothFailed (.leaf (.SyntaxError "b" ⟨([] : List Nat), 5⟩))
        (ENode.andFirstParser
          (.leaf (.SyntaxError "c" ⟨([] : List Nat), 1⟩))))).likelyError =
      .SyntaxError "b" ⟨([] : List Nat), 5⟩ :=
  (likely_error_furthest_selection
      (ENode.andSecondParser (.leaf (.SyntaxError "a" ⟨([] : List Nat), 2⟩)))
      (ENode.orBothFailed (.leaf (.SyntaxError "b" ⟨([] : List Nat), 5⟩))
        (ENode.andFirstParser
          (.leaf (.SyntaxError "c" ⟨([] : List Nat), 1⟩))))).2.1 (by decide)

/-- Claim C5: Not(p) fails with the unexpected-match syntax error at the
original cursor's position when p succeeds, and succeeds with unit output
and the original unadvanced cursor when p fails; input is never consumed. -/
theorem not_negative_lookahead (p : ParserFn α β) (c : AtomicCursor α) :
    (∀ r, p c = .ok r → notP p c = .error (.leaf (.SyntaxError
      "negative lookahead failed: unexpected match" ⟨c.source, c.position⟩))) ∧
    (∀ e, p c = .error e → notP p c = .ok ((), c)) := by
  constructor <;> intros <;>
    simp_all [notP, AtomicCursor.inner_fst, AtomicCursor.inner_snd]

/-- Witness for C5: negative lookahead of a matching byte fails at the
start position; of a non-matching byte succeeds without advancing. -/
theorem not_negative_lookahead_witness :
    notP (isByte 97) (AtomicCursor.Valid [97, 98] 0) =
      .error (.leaf (.SyntaxError "negative lookahead failed: unexpected match"
        ⟨[97, 98], 0⟩)) ∧
    notP (isByte 98) (AtomicCursor.Valid [97, 98] 0) =
      .ok ((), .Valid [97, 98] 0) :=
  ⟨(not_negative_lookahead (isByte 97) (AtomicCursor.Valid [97, 98] 0)).1 _ rfl,
   (not_negative_lookahead (isByte 98) (AtomicCursor.Valid [97, 98] 0)).2 _ rfl⟩

/-- Claim C7: when the inner parser succeeds but the predicate rejects its
output, Filter fails with a syntax error anchored at the cursor position
before the inner parser ran, carrying the configured message. -/
theorem filter_error_anchoring (p : ParserFn α β) (f : β → Bool) (msg : String)
    (c : AtomicCursor α) (v : β) (c₂ : AtomicCursor α)
    (hp : p c = .ok (v, c₂)) (hf : f v = false) :
    filterP p f msg c =
      .error (.filterFailed (.SyntaxError msg ⟨c.source, c.position⟩)) := by
  simp [filterP, hp, hf, AtomicCursor.inner_fst, AtomicCursor.inner_snd]

/-- Witness for C7: filtering a successfully parsed byte through an
always-false predicate anchors the error at position 0, where the byte
started, not at position 1 where the parse ended. -/
theorem filter_error_anchoring_witness :
    filterP byteP (fun _ => false) "rejected" (AtomicCursor.Valid [97, 98] 0) =
      .error (.filterFailed (.SyntaxError "rejected" ⟨[97, 98], 0⟩)) :=
  filter_error_anchoring byteP (fun _ => false) "rejected"
    (AtomicCursor.Valid [97, 98] 0) 97 (.Valid [97, 98] 1) rfl rfl

/-- Claim C3: the UTF-8 decoder's correctness table.  The four valid
sequences decode to their exact scalar values with the cursor advanced by
exactly 1, 2, 3 and 4 bytes (a trailing 0x21 byte shows the landing
position); 0xC0 0x80 fails as overlong, 0xED 0xA0 0x80 as a UTF-16
surrogate, 0xF4 0x90 0x80 0x80 as beyond the Unicode range, and a lone
0xC2 as an incomplete sequence. -/
theorem utf8_char_decoder_table :
    charP (AtomicCursor.new [0x41, 0x21]) =
      .ok (0x41, .Valid [0x41, 0x21] 1) ∧
    charP (AtomicCursor.new [0xC3, 0xB1, 0x21]) =
      .ok (0xF1, .Valid [0xC3, 0xB1, 0x21] 2) ∧
    charP (AtomicCursor.new [0xE2, 0x82, 0xAC, 0x21]) =
      .ok (0x20AC, .Valid [0xE2, 0x82, 0xAC, 0x21] 3) ∧
    charP (AtomicCursor.new [0xF0, 0x9F, 0xA6, 0x80, 0x21]) =
      .ok (0x1F980, .Valid [0xF0, 0x9F, 0xA6, 0x80, 0x21] 4) ∧
    charP (AtomicCursor.new [0xC0, 0x80]) =
      .error (.leaf (.SyntaxError "overlong UTF-8 encoding" ⟨[0xC0, 0x80], 0⟩)) ∧
    charP (AtomicCursor.new [0xED, 0xA0, 0x80]) =
      .error (.leaf (.SyntaxError "UTF-16 surrogate in UTF-8"
        ⟨[0xED, 0xA0, 0x80], 0⟩)) ∧
    charP (AtomicCursor.new [0xF4, 0x90, 0x80, 0x80]) =
      .error (.leaf (.SyntaxError "codepoint beyond Unicode range"
        ⟨[0xF4, 0x90, 0x80, 0x80], 0⟩)) ∧
    charP (AtomicCursor.new [0xC2]) =
      .error (.leaf (.SyntaxError "incomplete UTF-8 sequence" ⟨[0xC2], 1⟩)) :=
  ⟨rfl, rfl, rfl, rfl, rfl, rfl, rfl, rfl⟩

/-- Claim C4: Many(p) always succeeds; when p fails at once it returns the
empty collection with the original cursor (the cursor from before the
failing attempt, the failure swallowed); when p succeeds it collects the
output and continues from p's cursor; and Some(p) is an error exactly when
Many(p) returns an empty collection with an unmoved cursor. -/
theorem many_some_relationship (p : ParserFn α β) (c : AtomicCursor α)
    (fuel f2 : Nat) :
    (∃ r, manyP p (fuel + 1) c = .ok r) ∧
    (∀ e, p c = .error e → manyP p (fuel + 1) c = .ok ([], c)) ∧
    (∀ v c₂, p c = .ok (v, c₂) →
      manyP p (fuel + 1) c =
        .ok (v :: (manyLoop p fuel c₂).1, (manyLoop p fuel c₂).2)) ∧
    ((∃ e, someP p f2 c = .error e) ↔ manyP p (fuel + 1) c = .ok ([], c)) := by
  refine ⟨⟨manyLoop p (fuel + 1) c, rfl⟩, ?_, ?_, ?_⟩
  · intro e he
    simp [manyP, manyLoop, he]
  · intro v c₂ hv
    simp [manyP, manyLoop, hv]
  · cases hp : p c with
    | error e => simp [someP, manyP, manyLoop, hp]
    | ok r => simp [someP, manyP, manyLoop, hp]

/-- Witness for C4 with a concrete byte parser: a failing first match
makes Some fail and Many return empty at the original cursor, and a
matching input makes Many collect the match. -/
theorem many_some_relationship_witness :
    manyP (isByte 97) 1 (AtomicCursor.Valid [98] 0) =
      .ok ([], .Valid [98] 0) ∧
    ((∃ e, someP (isByte 97) 3 (AtomicCursor.Valid [98] 0) = .error e) ↔
      manyP (isByte 97) 1 (AtomicCursor.Valid [98] 0) =
        .ok ([], .Valid [98] 0)) ∧
    manyP (isByte 97) 3 (AtomicCursor.Valid [97, 98] 0) =
      .ok ([97], .Valid [97, 98] 1) :=
  ⟨(many_some_relationship (isByte 97) (AtomicCursor.Valid [98] 0) 0 3).2.1
      (.leaf (.SyntaxError "expected byte 97, found 98" ⟨[98], 0⟩)) rfl,
   (many_some_relationship (isByte 97) (AtomicCursor.Valid [98] 0) 0 3).2.2.2,
   (many_some_relationship (isByte 97) (AtomicCursor.Valid [97, 98] 0) 2 3).2.2.1
      97 (.Valid [97, 98] 1) rfl⟩

/-- Claim C6: SeparatedList fails when the first item cannot be parsed,
and after a successful separator match the next item is required, its
failure propagating as the whole parse's error; concretely, digits
separated by commas reject the trailing separator in 1,2, (failing at the
end-of-input position where an item was required) and parse 1,2 to the two
digits with an end-of-sequence cursor. -/
theorem separated_list_trailing_separator :
    (∀ (α β γ : Type) (p : ParserFn α β) (sep : ParserFn α γ) (fuel : Nat)
      (c : AtomicCursor α) (e : ENode α), p c = .error e →
      separatedListP p sep fuel c = .error e) ∧
    (∀ (α β γ : Type) (p : ParserFn α β) (sep : ParserFn α γ) (fuel : Nat)
      (acc : List β) (c : AtomicCursor α) (s : γ) (c₂ : AtomicCursor α)
      (e : ENode α), sep c = .ok (s, c₂) → p c₂ = .error e →
      sepListLoop p sep (fuel + 1) acc c = .error e) ∧
    separatedListP digitP (isByte 44) 8 (AtomicCursor.new [49, 44, 50, 44]) =
      .error (.leaf (.CannotReadValueAtEof ⟨[49, 44, 50, 44], 4⟩)) ∧
    separatedListP digitP (isByte 44) 8 (AtomicCursor.new [49, 44, 50]) =
      .ok ([49, 50], .EndOfFile [49, 44, 50]) := by
  refine ⟨?_, ?_, rfl, rfl⟩
  · intro α β γ p sep fuel c e he
    simp [separatedListP, he]
  · intro α β γ p sep fuel acc c s c₂ e hsep hp
    simp [sepListLoop, hsep, hp]

/-- Witness for C6: a non-digit first item makes the list parse fail with
that item error, by the first clause of the theorem. -/
theorem separated_list_trailing_separator_witness :
    digitP (AtomicCursor.Valid [97] 0) =
      .error (.leaf (.SyntaxError "expected byte in range 48-57, found 97"
        ⟨[97], 0⟩)) ∧
    separatedListP digitP (isByte 44) 3 (AtomicCursor.Valid [97] 0) =
      .error (.leaf (.SyntaxError "expected byte in range 48-57, found 97"
        ⟨[97], 0⟩)) :=
  ⟨rfl,
   separated_list_trailing_separator.1 Nat Nat Nat digitP (isByte 44) 3
     (AtomicCursor.Valid [97] 0)
     (.leaf (.SyntaxError "expected byte in range 48-57, found 97" ⟨[97], 0⟩))
     rfl⟩

/-- Claim C8: a successful Position(p) parse pairs p's output with a span
whose source is the input cursor's source, whose start is the input
cursor's position and whose end is the returned cursor's position, and
slicing the source over that half-open range yields exactly the segment of
the source lying between the two cursor positions — element i of the slice
is source element start + i, and the slice has length end minus start. -/
theorem position_span_roundtrip (p : ParserFn α β) (c : AtomicCursor α)
    (v : β) (c₂ : AtomicCursor α) (hp : p c = .ok (v, c₂))
    (hbound : c₂.position ≤ c.source.length) :
    positionP p c = .ok ((v, ⟨c.source, c.position, c₂.position⟩), c₂) ∧
    Span.slice ⟨c.source, c.position, c₂.position⟩ = segmentBetween c c₂ ∧
    (Span.slice ⟨c.source, c.position, c₂.position⟩).length =
      c₂.position - c.position ∧
    (∀ i, i < c₂.position - c.position →
      (Span.slice ⟨c.source, c.position, c₂.position⟩)[i]? =
        c.source[c.position + i]?) := by
  refine ⟨by simp [positionP, hp], rfl, ?_, ?_⟩
  · simp [Span.slice]
    omega
  · intro i hi
    simp [Span.slice, List.getElem?_take, hi, List.getElem?_drop]

/-- Witness for C8: wrapping a two-character UTF-8 parse in Position over
a three-byte source yields the span from 0 to 2, whose slice is the two
consumed bytes. -/
theorem position_span_roundtrip_witness :
    positionP charP (AtomicCursor.Valid [0xC3, 0xB1, 0x21] 0) =
      .ok ((0xF1, ⟨[0xC3, 0xB1, 0x21], 0, 2⟩), .Valid [0xC3, 0xB1, 0x21] 2) ∧
    Span.slice ⟨[0xC3, 0xB1, 0x21], 0, 2⟩ =
      segmentBetween (AtomicCursor.Valid [0xC3, 0xB1, 0x21] 0)
        (AtomicCursor.Valid [0xC3, 0xB1, 0x21] 2) :=
  ⟨(position_span_roundtrip charP (AtomicCursor.Valid [0xC3, 0xB1, 0x21] 0)
      0xF1 (.Valid [0xC3, 0xB1, 0x21] 2) rfl (by decide)).1,
   (position_span_roundtrip charP (AtomicCursor.Valid [0xC3, 0xB1, 0x21] 0)
      0xF1 (.Valid [0xC3, 0xB1, 0x21] 2) rfl (by decide)).2.1⟩

theorem new_wf (data : List α) : WFCursor (AtomicCursor.new data) := by
  cases data with
  | nil => simp [AtomicCursor.new, WFCursor]
  | cons a l => simp [AtomicCursor.new, WFCursor]

theorem next_wf (c : AtomicCursor α) : WFCursor c.next := by
  cases c with
  | Valid data position =>
    simp only [AtomicCursor.next]
    split
    · trivial
    · simp only [WFCursor]
      omega
  | EndOfFile data => trivial

theorem tryNext_ok_eq_next {c c₂ : AtomicCursor α} (h : c.tryNext = .ok c₂) :
    c₂ = c.next := by
  cases c with
  | EndOfFile data => simp [AtomicCursor.tryNext] at h
  | Valid data position =>
    simp only [AtomicCursor.tryNext] at h
    cases hn : (AtomicCursor.Valid data position).next with
    | Valid d p =>
      rw [hn] at h
      simp at h
      exact h.symm
    | EndOfFile d =>
      rw [hn] at h
      simp at h

/-- Every cursor reachable through the lifecycle satisfies the
well-formedness invariant: this is the induction behind claim C9. -/
theorem reached_wf {c : AtomicCursor α} (h : Reached c) : WFCursor c := by
  induction h with
  | new data => exact new_wf data
  | next _ _ => exact next_wf _
  | tryNext _ he _ => rw [tryNext_ok_eq_next he]; exact next_wf _

/-- Claim C9: every cursor reachable from AtomicCursor::new through next
and try_next satisfies the cursor contract: a valid cursor's index is in
bounds and value returns the element there; value at end-of-sequence fails
with the cannot-read-at-end error; next is total, advances a valid cursor
clamping into the end-of-sequence variant past the last element, and keeps
an end-of-sequence cursor at end-of-sequence; and the position equals the
source length exactly when the cursor is at end. -/
theorem atomic_cursor_contract [Inhabited α] (c : AtomicCursor α)
    (h : Reached c) :
    (∀ data position, c = .Valid data position →
      ∃ hlt : position < data.length, c.value = .ok (data.get ⟨position, hlt⟩)) ∧
    (∀ data, c = .EndOfFile data →
      c.value = .error (.CannotReadValueAtEof ⟨data, data.length⟩)) ∧
    (∀ data position, c = .Valid data position →
      (position + 1 ≥ data.length → c.next = .EndOfFile data) ∧
      (position + 1 < data.length → c.next = .Valid data (position + 1))) ∧
    (∀ data, c = .EndOfFile data → c.next = .EndOfFile data) ∧
    (c.position = c.source.length ↔ c.isEof = true) := by
  have hwf := reached_wf h
  refine ⟨?_, ?_, ?_, ?_, ?_⟩
  · rintro data position rfl
    refine ⟨hwf, ?_⟩
    show Except.ok (data.getD position default) = _
    rw [List.getD_eq_getElem _ _ hwf]
    rfl
  · rintro data rfl
    rfl
  · rintro data position rfl
    constructor <;> intro hlen <;> simp [AtomicCursor.next, hlen]
  · rintro data rfl
    rfl
  · cases c with
    | Valid data position =>
      have hlt : position < data.length := hwf
      simp only [AtomicCursor.position, AtomicCursor.source, AtomicCursor.isEof]
      constructor
      · intro heq
        omega
      · intro hfalse
        cases hfalse
    | EndOfFile data =>
      simp [AtomicCursor.position, AtomicCursor.source, AtomicCursor.isEof]

/-- Witness for C9 on the one-element source: the fresh cursor reads its
element in bounds, and its position equals the source length exactly when
it is at end (here it is not). -/
theorem atomic_cursor_contract_witness :
    (∃ hlt : 0 < [(5 : Nat)].length,
      (AtomicCursor.new [(5 : Nat)]).value = .ok ([(5 : Nat)].get ⟨0, hlt⟩)) ∧
    ((AtomicCursor.new [(5 : Nat)]).position =
        (AtomicCursor.new [(5 : Nat)]).source.length ↔
      (AtomicCursor.new [(5 : Nat)]).isEof = true) :=
  ⟨(atomic_cursor_contract _ (Reached.new [5])).1 [5] 0 rfl,
   (atomic_cursor_contract _ (Reached.new [5])).2.2.2.2⟩

theorem takeUntilLoop_eof_run {p : ParserFn α β} {f : β → Bool}
    {items : List β} {dataEnd : List α} {c : AtomicCursor α}
    (h : RunsToEof p f items dataEnd c) :
    ∀ fuel acc, items.length < fuel →
      takeUntilLoop p f fuel acc c = .ok (acc ++ items, .EndOfFile dataEnd) := by
  induction h with
  | eof data =>
    intro fuel acc hf
    cases fuel with
    | zero => omega
    | succ n => simp [takeUntilLoop]
  | step hp hfv _ ih =>
    intro fuel acc hf
    cases fuel with
    | zero => simp at hf
    | succ n =>
      simp only [takeUntilLoop, hp, hfv]
      rw [if_neg (by simp)]
      rw [ih n _ (by simpa using Nat.lt_of_succ_lt_succ hf)]
      simp

/-- Claim C10: when TakeUntil(p, f) reaches the end of the input with p
succeeding on every applied step and f never firing on a produced item,
the parse succeeds with all the accumulated items and the end-of-sequence
cursor. -/
theorem take_until_eof_success (p : ParserFn α β) (f : β → Bool)
    (items : List β) (dataEnd : List α) (c : AtomicCursor α) (fuel : Nat)
    (h : RunsToEof p f items dataEnd c) (hfuel : items.length < fuel) :
    takeUntilP p f fuel c = .ok (items, .EndOfFile dataEnd) := by
  have hrun := takeUntilLoop_eof_run h fuel [] hfuel
  simpa [takeUntilP] using hrun

/-- Witness for C10: scanning a one-byte input with an always-false stop
predicate consumes the byte and ends successfully at end-of-sequence. -/
theorem take_until_eof_success_witness :
    takeUntilP byteP (fun _ => false) 2 (AtomicCursor.Valid [(7 : Nat)] 0) =
      .ok ([7], .EndOfFile [7]) :=
  take_until_eof_success byteP (fun _ => false) [7] [7] (.Valid [7] 0) 2
    (RunsToEof.step rfl rfl (RunsToEof.eof [7])) (by decide)

end Parsicomb
